import Mathlib

/-!
Shallow embedding of `atropos/io/seqio.py` (sequence I/O: FASTA/FASTQ readers,
paired/interleaved readers, SAM pairing, format detection, formatters).

Python line streams are modelled as `List String` (each element one line, as
yielded by file iteration, normally ending in a newline).  Generators that can
yield some items and then raise are modelled as functions returning the list of
yielded items together with an optional error.  Python exceptions are modelled
by the `SeqErr` type below.
-/

/-- ASCII whitespace recognized by Python `str.strip()` / `str.split()`
(the Unicode-only whitespace code points are not modelled). -/
def isPySpace (c : Char) : Bool :=
  c == ' ' || c == '\t' || c == '\n' || c == '\r' || c == '\x0b' || c == '\x0c'

/-- Strip trailing whitespace, as a list of characters. -/
def dropTrailingSpace (l : List Char) : List Char :=
  (l.reverse.dropWhile isPySpace).reverse

/-- Python `str.strip()` on the character list. -/
def pyStripList (l : List Char) : List Char :=
  (dropTrailingSpace l).dropWhile isPySpace

/-- Python `str.strip()`. -/
def pyStrip (s : String) : String :=
  String.mk (pyStripList s.data)

/-- Python `s.split(None, 1)[0]`: the first whitespace-delimited token,
as a character list; empty when the string has no token. -/
def firstTokenList (l : List Char) : List Char :=
  (l.dropWhile isPySpace).takeWhile (fun c => !(isPySpace c))

/-- Python `s.split(None, 1)[0]`; `none` models the `IndexError` raised when
`split` returns an empty list (name empty or all whitespace). -/
def firstToken (s : String) : Option String :=
  let t := firstTokenList s.data
  if t.isEmpty then none else some (String.mk t)

/-- Errors raised by the embedded code (`FormatError`, `UnknownFileType`,
`ValueError`, `AtroposError`, `AssertionError`, `IndexError`), with the
payloads that identify the offending records. -/
inductive SeqErr where
  /-- `FormatError`: colorspace quality length does not match read length. -/
  | qualLenMismatch (name : String) (qlen slen : Nat)
  /-- `FormatError`: colorspace primer base not one of A, C, G, T. -/
  | badPrimer (primer name : String)
  /-- `FormatError`: non-header line before any FASTA header. -/
  | fastaFormatErr (lineno : Nat) (line : String)
  /-- `FormatError`: more reads in file 2 than in file 1. -/
  | moreInFile2
  /-- `FormatError`: more reads in file 1 than in file 2. -/
  | moreInFile1
  /-- `FormatError`: paired read names do not match (names both reads). -/
  | pairNameMismatch (n1 n2 : String)
  /-- `FormatError`: interleaved input incomplete, last record has no partner. -/
  | interleavedIncomplete
  /-- `AtroposError`: consecutive SAM reads do not have the same name. -/
  | samNameMismatch (n1 n2 : String)
  /-- Python `AssertionError` (from `assert` on read1/read2 flags). -/
  | assertionError
  /-- Python `IndexError` (empty name in `sequence_names_match`). -/
  | indexError
  /-- `UnknownFileType`. -/
  | unknownFileType (detail : String)
  /-- Python `ValueError`. -/
  | valueError (detail : String)
deriving DecidableEq, Repr

deriving instance DecidableEq for Except

/-- The `Sequence` record (from the external `_seqio` extension; modelled from
the spec's record model: name, residues, optional qualities, secondary header.
The opaque auxiliary trimming fields are not needed by any claim). -/
structure Sequence where
  name : String
  sequence : String
  qualities : Option String := none
  name2 : String := ""
deriving DecidableEq, Repr

/-- `sequence_names_match(read1, read2)`: compare the first whitespace token of
each name, dropping the final character of both when both tokens end in `'1'`
or `'2'`.  `[-1:] in '12'` on the (nonempty) token is membership of its last
character in that set. -/
def sequence_names_match (read1 read2 : Sequence) : Except SeqErr Bool :=
  match firstToken read1.name with
  | none => .error .indexError
  | some n1 =>
    match firstToken read2.name with
    | none => .error .indexError
    | some n2 =>
      if (n1.data.getLast? = some '1' ∨ n1.data.getLast? = some '2') ∧
         (n2.data.getLast? = some '1' ∨ n2.data.getLast? = some '2') then
        .ok (decide (n1.data.dropLast = n2.data.dropLast))
      else
        .ok (decide (n1 = n2))

/-- `PairedSequenceReader.__iter__` over the two record streams: the yielded
pairs together with the error that ends iteration (if any). -/
def PairedSequenceReader.run : List Sequence → List Sequence →
    List (Sequence × Sequence) × Option SeqErr
  | [], [] => ([], none)
  | [], _ :: _ => ([], some .moreInFile2)
  | _ :: _, [] => ([], some .moreInFile1)
  | r1 :: t1, r2 :: t2 =>
    match sequence_names_match r1 r2 with
    | .error e => ([], some e)
    | .ok false => ([], some (.pairNameMismatch r1.name r2.name))
    | .ok true =>
      let rest := PairedSequenceReader.run t1 t2
      ((r1, r2) :: rest.1, rest.2)

/-- `InterleavedSequenceReader.__iter__` over the record stream. -/
def InterleavedSequenceReader.run : List Sequence →
    List (Sequence × Sequence) × Option SeqErr
  | [] => ([], none)
  | [_] => ([], some .interleavedIncomplete)
  | r1 :: r2 :: t =>
    match sequence_names_match r1 r2 with
    | .error e => ([], some e)
    | .ok false => ([], some (.pairNameMismatch r1.name r2.name))
    | .ok true =>
      let rest := InterleavedSequenceReader.run t
      ((r1, r2) :: rest.1, rest.2)

/-- Consecutive disjoint pairs of a list: the pairs pulled by `zip(it, it)`
on a single iterator, or by the interleaved reader's two pulls per step. -/
def pairUp : List α → List (α × α)
  | a :: b :: t => (a, b) :: pairUp t
  | _ => []

/-- Induction in steps of two list elements, matching the recursion pattern of
the pairing readers. -/
theorem twoStepInduction {α : Type _} {motive : List α → Prop} (h0 : motive [])
    (h1 : ∀ a, motive [a]) (h2 : ∀ a b t, motive t → motive (a :: b :: t)) :
    ∀ l, motive l
  | [] => h0
  | [a] => h1 a
  | a :: b :: t => h2 a b t (twoStepInduction h0 h1 h2 t)

/-- C1: the two-file paired reader yields one pair per step while both streams
produce records (here: with matching names); when stream 1 exhausts first with
stream 2 nonempty it fails with the "more reads in file 2" pairing error; when
stream 2 exhausts with stream 1 nonempty it fails with "more reads in file 1";
when both exhaust together iteration ends normally. -/
theorem paired_reader_pairing_policy (l1 l2 : List Sequence)
    (h : ∀ p ∈ l1.zip l2, sequence_names_match p.1 p.2 = .ok true) :
    PairedSequenceReader.run l1 l2 =
      (l1.zip l2,
        if l1.length = l2.length then none
        else if l1.length < l2.length then some .moreInFile2
        else some .moreInFile1) := by
  induction l1 generalizing l2 with
  | nil =>
    cases l2 with
    | nil => simp [PairedSequenceReader.run]
    | cons r2 t2 => simp [PairedSequenceReader.run]
  | cons r1 t1 ih =>
    cases l2 with
    | nil => simp [PairedSequenceReader.run]
    | cons r2 t2 =>
      have hm : sequence_names_match r1 r2 = .ok true := by
        apply h (r1, r2); simp [List.zip_cons_cons]
      have ht : ∀ p ∈ t1.zip t2, sequence_names_match p.1 p.2 = .ok true := by
        intro p hp
        apply h p
        simp only [List.zip_cons_cons, List.mem_cons]
        exact Or.inr hp
      simp only [PairedSequenceReader.run, hm, ih t2 ht, List.zip_cons_cons,
        List.length_cons, Nat.add_right_cancel_iff, Nat.add_lt_add_iff_right]

/-- Witness for C1: three records in file 1 against two in file 2 with matching
names yield exactly two pairs before the "more reads in file 1" error. -/
theorem paired_reader_pairing_policy_witness :
    PairedSequenceReader.run
        [⟨"a/1", "AC", none, ""⟩, ⟨"b/1", "GT", none, ""⟩, ⟨"c/1", "TT", none, ""⟩]
        [⟨"a/2", "CA", none, ""⟩, ⟨"b/2", "TG", none, ""⟩] =
      ([(⟨"a/1", "AC", none, ""⟩, ⟨"a/2", "CA", none, ""⟩),
        (⟨"b/1", "GT", none, ""⟩, ⟨"b/2", "TG", none, ""⟩)],
        some .moreInFile1) :=
  (paired_reader_pairing_policy _ _ (by decide)).trans (by decide)

/-- C2: the interleaved reader yields one pair per two consecutive records
(here: with matching names); an odd record count yields all complete pairs and
then the "incomplete last record" pairing error instead of terminating
normally; an even count ends without error. -/
theorem interleaved_reader_pairing_policy (l : List Sequence)
    (h : ∀ p ∈ pairUp l, sequence_names_match p.1 p.2 = .ok true) :
    InterleavedSequenceReader.run l =
      (pairUp l,
        if l.length % 2 = 1 then some .interleavedIncomplete else none) := by
  induction l using twoStepInduction with
  | h0 => simp [InterleavedSequenceReader.run, pairUp]
  | h1 a => simp [InterleavedSequenceReader.run, pairUp]
  | h2 a b t ih =>
    have hm : sequence_names_match a b = .ok true := by
      apply h (a, b); simp [pairUp]
    have ht : ∀ p ∈ pairUp t, sequence_names_match p.1 p.2 = .ok true := by
      intro p hp
      apply h p
      simp only [pairUp, List.mem_cons]
      exact Or.inr hp
    have hlen : (a :: b :: t).length % 2 = t.length % 2 := by
      simp only [List.length_cons]
      omega
    simp only [InterleavedSequenceReader.run, hm, ih ht, pairUp, hlen]

/-- Witness for C2: an interleaved stream of three name-matched records yields
one pair and then the incomplete-last-record error; two records end normally. -/
theorem interleaved_reader_pairing_policy_witness :
    InterleavedSequenceReader.run
        [⟨"a/1", "AC", none, ""⟩, ⟨"a/2", "GT", none, ""⟩, ⟨"b/1", "TT", none, ""⟩] =
      ([(⟨"a/1", "AC", none, ""⟩, ⟨"a/2", "GT", none, ""⟩)],
        some .interleavedIncomplete) :=
  (interleaved_reader_pairing_policy _ (by decide)).trans (by decide)

/-- C4: on names that are their own first token, `sequence_names_match` strips
the final character of both names exactly when both end in a character from
the set containing '1' and '2' (not necessarily different digits), accepts the
pair exactly when the resulting names are equal, and a mismatch makes the
paired and interleaved readers fail with the pairing error naming both reads. -/
theorem sequence_names_match_strip_rule (r1 r2 : Sequence) (t1 t2 l : List Sequence)
    (h1 : firstToken r1.name = some r1.name)
    (h2 : firstToken r2.name = some r2.name) :
    (((r1.name.data.getLast? = some '1' ∨ r1.name.data.getLast? = some '2') ∧
      (r2.name.data.getLast? = some '1' ∨ r2.name.data.getLast? = some '2')) →
      sequence_names_match r1 r2 =
        .ok (decide (r1.name.data.dropLast = r2.name.data.dropLast))) ∧
    (¬ ((r1.name.data.getLast? = some '1' ∨ r1.name.data.getLast? = some '2') ∧
      (r2.name.data.getLast? = some '1' ∨ r2.name.data.getLast? = some '2')) →
      sequence_names_match r1 r2 = .ok (decide (r1.name = r2.name))) ∧
    (sequence_names_match r1 r2 = .ok false →
      PairedSequenceReader.run (r1 :: t1) (r2 :: t2) =
        ([], some (.pairNameMismatch r1.name r2.name)) ∧
      InterleavedSequenceReader.run (r1 :: r2 :: l) =
        ([], some (.pairNameMismatch r1.name r2.name))) := by
  refine ⟨?_, ?_, ?_⟩
  · intro hc
    simp only [sequence_names_match, h1, h2, if_pos hc]
  · intro hc
    simp only [sequence_names_match, h1, h2, if_neg hc]
  · intro hfalse
    constructor
    · simp only [PairedSequenceReader.run, hfalse]
    · simp only [InterleavedSequenceReader.run, hfalse]

/-- Witness for C4: names ending in '1' and '2' are stripped and compared
equal on the remainder; unequal stripped names make the paired reader fail
with the pairing error naming both reads. -/
theorem sequence_names_match_strip_rule_witness :
    sequence_names_match ⟨"readA1", "", none, ""⟩ ⟨"readA2", "", none, ""⟩ =
      .ok true ∧
    PairedSequenceReader.run [⟨"x1", "", none, ""⟩] [⟨"y2", "", none, ""⟩] =
      ([], some (.pairNameMismatch "x1" "y2")) := by
  constructor
  · exact ((sequence_names_match_strip_rule ⟨"readA1", "", none, ""⟩
      ⟨"readA2", "", none, ""⟩ [] [] [] (by decide) (by decide)).1
      (by decide)).trans (by decide)
  · exact ((sequence_names_match_strip_rule ⟨"x1", "", none, ""⟩
      ⟨"y2", "", none, ""⟩ [] [] [] (by decide) (by decide)).2.2 (by decide)).1

/-- C9: `sequence_names_match` depends only on the first whitespace-delimited
token of each name, and two records whose tokens are equal after the
trailing-'1'/'2' stripping rule are accepted even when the text after the
whitespace differs. -/
theorem sequence_names_match_first_token_only (r1 r2 : Sequence) (n1 n2 : String)
    (h1 : firstToken r1.name = some n1) (h2 : firstToken r2.name = some n2) :
    (∀ r3 r4 : Sequence, firstToken r3.name = some n1 →
      firstToken r4.name = some n2 →
      sequence_names_match r1 r2 = sequence_names_match r3 r4) ∧
    ((if (n1.data.getLast? = some '1' ∨ n1.data.getLast? = some '2') ∧
         (n2.data.getLast? = some '1' ∨ n2.data.getLast? = some '2')
      then n1.data.dropLast = n2.data.dropLast else n1 = n2) →
      sequence_names_match r1 r2 = .ok true) := by
  constructor
  · intro r3 r4 h3 h4
    simp only [sequence_names_match, h1, h2, h3, h4]
  · intro hcond
    by_cases hc : (n1.data.getLast? = some '1' ∨ n1.data.getLast? = some '2') ∧
        (n2.data.getLast? = some '1' ∨ n2.data.getLast? = some '2')
    · rw [if_pos hc] at hcond
      simp only [sequence_names_match, h1, h2, if_pos hc, hcond, decide_eq_true_eq]
      simp [hcond]
    · rw [if_neg hc] at hcond
      simp only [sequence_names_match, h1, h2, if_neg hc]
      simp [hcond]

/-- Witness for C9: two reads whose headers share the first token but differ
in their descriptions after the whitespace are accepted. -/
theorem sequence_names_match_first_token_only_witness :
    sequence_names_match ⟨"read7 len=100", "", none, ""⟩
      ⟨"read7 other text", "", none, ""⟩ = .ok true :=
  (sequence_names_match_first_token_only ⟨"read7 len=100", "", none, ""⟩
    ⟨"read7 other text", "", none, ""⟩ "read7" "read7"
    (by decide) (by decide)).2 (by decide)

/-- A colorspace read: the primer base split off the raw sequence plus the
stored record fields. -/
structure ColorspaceSequence where
  primer : String
  name : String
  sequence : String
  qualities : Option String
  name2 : String
deriving DecidableEq, Repr

/-- `ColorspaceSequence.__init__`: with no explicit primer the first character
of the raw sequence becomes `primer` and the rest the stored sequence; a
quality string whose length differs from the stored sequence is a
`FormatError` (checked first), and a primer outside A, C, G, T is a
`FormatError` (checked after the base constructor, which cannot fail here
because the length invariant was just established). -/
def ColorspaceSequence.make (name sequence : String) (qualities : Option String)
    (primer : Option String) (name2 : String) : Except SeqErr ColorspaceSequence :=
  let p := match primer with
    | none => String.mk (sequence.data.take 1)
    | some pr => pr
  let s := match primer with
    | none => String.mk (sequence.data.drop 1)
    | some _ => sequence
  match qualities with
  | some q =>
    if s.length ≠ q.length then .error (.qualLenMismatch name q.length s.length)
    else if p ∈ (["A", "C", "G", "T"] : List String) then
      .ok ⟨p, name, s, some q, name2⟩
    else .error (.badPrimer p name)
  | none =>
    if p ∈ (["A", "C", "G", "T"] : List String) then
      .ok ⟨p, name, s, none, name2⟩
    else .error (.badPrimer p name)

/-- C5: constructing a colorspace sequence without an explicit primer splits
the first raw character off as the primer and stores the rest; a primer
outside A, C, G, T fails with a malformed-record error at construction time;
a present quality string whose length differs from the post-split sequence
length fails with a malformed-record error naming the read. -/
theorem ColorspaceSequence.primer_split (name s : String) (q : Option String)
    (n2 : String) :
    ((∀ qs, q = some qs → qs.length = (String.mk (s.data.drop 1)).length) →
      String.mk (s.data.take 1) ∈ (["A", "C", "G", "T"] : List String) →
      ColorspaceSequence.make name s q none n2 =
        .ok ⟨String.mk (s.data.take 1), name, String.mk (s.data.drop 1), q, n2⟩) ∧
    ((∀ qs, q = some qs → qs.length = (String.mk (s.data.drop 1)).length) →
      String.mk (s.data.take 1) ∉ (["A", "C", "G", "T"] : List String) →
      ColorspaceSequence.make name s q none n2 =
        .error (.badPrimer (String.mk (s.data.take 1)) name)) ∧
    (∀ qs, q = some qs → qs.length ≠ (String.mk (s.data.drop 1)).length →
      ColorspaceSequence.make name s q none n2 =
        .error (.qualLenMismatch name qs.length (String.mk (s.data.drop 1)).length)) := by
  refine ⟨?_, ?_, ?_⟩
  · intro hq hp
    cases q with
    | none => simp only [ColorspaceSequence.make, if_pos hp]
    | some qs =>
      have hlen := hq qs rfl
      simp only [ColorspaceSequence.make]
      rw [if_neg (by omega), if_pos hp]
  · intro hq hp
    cases q with
    | none => simp only [ColorspaceSequence.make, if_neg hp]
    | some qs =>
      have hlen := hq qs rfl
      simp only [ColorspaceSequence.make]
      rw [if_neg (by omega), if_neg hp]
  · intro qs hqs hlen
    subst hqs
    simp only [ColorspaceSequence.make]
    rw [if_pos (by omega)]

/-- Witness for C5: raw sequence "A0123" gives primer "A" and stored sequence
"0123"; primer "5" is rejected; a three-character quality string against a
four-character post-split sequence is rejected naming the read. -/
theorem ColorspaceSequence.primer_split_witness :
    ColorspaceSequence.make "read1" "A0123" (some "!!!!") none "" =
      .ok ⟨"A", "read1", "0123", some "!!!!", ""⟩ ∧
    ColorspaceSequence.make "read2" "50123" (some "!!!!") none "" =
      .error (.badPrimer "5" "read2") ∧
    ColorspaceSequence.make "read3" "A012" (some "!!!!") none "" =
      .error (.qualLenMismatch "read3" 4 3) := by
  refine ⟨?_, ?_, ?_⟩
  · exact ((ColorspaceSequence.primer_split "read1" "A0123" (some "!!!!") "").1
      (by decide) (by decide)).trans (by decide)
  · exact ((ColorspaceSequence.primer_split "read2" "50123" (some "!!!!") "").2.1
      (by decide) (by decide)).trans (by decide)
  · exact ((ColorspaceSequence.primer_split "read3" "A012" (some "!!!!") "").2.2
      "!!!!" rfl (by decide)).trans (by decide)

/-- Index of the last occurrence of a character in a list, if any. -/
def rlastIdxOf (l : List Char) (c : Char) : Option Nat :=
  match l.reverse.findIdx? (fun x => x == c) with
  | some k => some (l.length - 1 - k)
  | none => none

/-- Python `str.endswith` (implemented over character lists so that it
evaluates by kernel reduction). -/
def pyEndsWith (s suffixStr : String) : Bool :=
  s.data.reverse.take suffixStr.data.length == suffixStr.data.reverse

/-- Remove the last `n` characters (Python `s[:-n]`). -/
def pyDropRight (s : String) (n : Nat) : String :=
  String.mk (s.data.take (s.data.length - n))

/-- Modelled from the spec: `splitext_compressed` lives in
`atropos.io.compression`, which is not under src/.  Per the spec, a recognized
compression suffix (.gz, .bz2, .xz) is stripped first and the remaining last
dot-extension is split off (Python `os.path.splitext`: the extension keeps its
dot, and a dot at position 0 starts no extension); directory separators are
not modelled. -/
def splitext_compressed (name : String) : String × String × Option String :=
  let base :=
    if pyEndsWith name ".gz" then (pyDropRight name 3, some ".gz")
    else if pyEndsWith name ".bz2" then (pyDropRight name 4, some ".bz2")
    else if pyEndsWith name ".xz" then (pyDropRight name 3, some ".xz")
    else (name, none)
  match rlastIdxOf base.1.data '.' with
  | some p =>
    if p = 0 then (base.1, "", base.2)
    else (String.mk (base.1.data.take p), String.mk (base.1.data.drop p), base.2)
  | none => (base.1, "", base.2)

/-- Python `str.lower()` restricted to ASCII letters. -/
def pyLowerChar (c : Char) : Char :=
  if 'A' ≤ c ∧ c ≤ 'Z' then Char.ofNat (c.toNat + 32) else c

/-- Python `str.lower()` (ASCII; file extensions only contain ASCII here). -/
def pyLower (s : String) : String :=
  String.mk (s.data.map pyLowerChar)

/-- The extension table of `guess_format_from_name`: strip a compression
suffix, lowercase the extension, look it up.  The `_sequence` stem test uses
Python's case-sensitive `str.endswith`.  `ext[1:]` maps `.sam`/`.bam` to
`sam`/`bam`. -/
def guess_format_lookup (path : String) : Option String :=
  let se := splitext_compressed path
  let stem := se.1
  let ext := pyLower se.2.1
  if ext ∈ ([".fasta", ".fa", ".fna", ".csfasta", ".csfa"] : List String) then
    some "fasta"
  else if ext ∈ ([".fastq", ".fq"] : List String) ∨
      (ext = ".txt" ∧ pyEndsWith stem "_sequence" = true) then
    some "fastq"
  else if ext ∈ ([".sam", ".bam"] : List String) then
    some (String.mk ext.data.tail)
  else none

/-- `guess_format_from_name(path, raise_on_failure)` for a string path: the
table lookup above; on lookup failure, `UnknownFileType` when asked to raise
and `None` otherwise. -/
def guess_format_from_name (path : String) (raise_on_failure : Bool) :
    Except SeqErr (Option String) :=
  match guess_format_lookup path with
  | some f => .ok (some f)
  | none =>
    if raise_on_failure then .error (.unknownFileType path)
    else .ok none

/-- The `FileFormat` instances `get_format` can return. -/
inductive FileFormatObj where
  | fastaFormat (line_length : Option Nat)
  | colorspaceFastaFormat (line_length : Option Nat)
  | fastqFormat
  | colorspaceFastqFormat
deriving DecidableEq, Repr

/-- `get_format(path, fileformat, colorspace, qualities, line_length)`:
extension detection (raising only when `qualities` is unspecified), the
qualities-based fasta/fastq default, the fastq-without-qualities
`ValueError`, and dispatch on the lowercased format name. -/
def get_format (path : String) (fileformat : Option String) (colorspace : Bool)
    (qualities : Option Bool) (line_length : Option Nat) :
    Except SeqErr FileFormatObj :=
  let ffRes : Except SeqErr (Option String) :=
    match fileformat with
    | none => guess_format_from_name path qualities.isNone
    | some f => .ok (some f)
  match ffRes with
  | .error e => .error e
  | .ok ff0 =>
    let ff1 : Option String :=
      match ff0 with
      | none =>
        match qualities with
        | some true => some "fastq"
        | some false => some "fasta"
        | none => none
      | some f => some f
    match ff1 with
    | none => .error (.unknownFileType "could not determine file type")
    | some f =>
      if f = "fastq" ∧ qualities = some false then
        .error (.valueError "output format cannot be FASTQ since no quality values are available")
      else
        let fl := pyLower f
        if fl = "fasta" then
          .ok (if colorspace then .colorspaceFastaFormat line_length
            else .fastaFormat line_length)
        else if fl = "fastq" then
          .ok (if colorspace then .colorspaceFastqFormat else .fastqFormat)
        else .error (.unknownFileType fl)

/-- C6: when extension detection fails, `get_format` silently resolves to a
FASTQ formatter when qualities are available, to a FASTA formatter when they
are not, and raises an unknown-format error when `qualities` is unspecified;
and a requested or detected format of fastq combined with `qualities = False`
is a fatal `ValueError`, never a silent downgrade. -/
theorem get_format_qualities_policy (path : String) (colorspace : Bool)
    (ll : Option Nat)
    (hfail : guess_format_from_name path false = .ok none) :
    get_format path none colorspace (some true) ll =
      .ok (if colorspace then .colorspaceFastqFormat else .fastqFormat) ∧
    get_format path none colorspace (some false) ll =
      .ok (if colorspace then .colorspaceFastaFormat ll else .fastaFormat ll) ∧
    get_format path none colorspace none ll =
      .error (.unknownFileType path) ∧
    get_format path (some "fastq") colorspace (some false) ll =
      .error (.valueError
        "output format cannot be FASTQ since no quality values are available") ∧
    (∀ p2 : String, guess_format_from_name p2 false = .ok (some "fastq") →
      get_format p2 none colorspace (some false) ll =
        .error (.valueError
          "output format cannot be FASTQ since no quality values are available")) := by
  have hlookup : guess_format_lookup path = none := by
    cases hl : guess_format_lookup path with
    | none => rfl
    | some f => simp [guess_format_from_name, hl] at hfail
  have hraise : guess_format_from_name path true =
      .error (.unknownFileType path) := by
    simp [guess_format_from_name, hlookup]
  have hfq : pyLower "fastq" = "fastq" := by decide
  have hfa : pyLower "fasta" = "fasta" := by decide
  refine ⟨?_, ?_, ?_, ?_, ?_⟩
  · simp [get_format, hfail, hfq, hfa]
  · simp [get_format, hfail, hfq, hfa]
  · simp [get_format, hraise]
  · rfl
  · intro p2 hg
    simp [get_format, hg]

/-- Witness for C6: with the unrecognized path "out.xyz", qualities available
resolves to the FASTQ formatter, unavailable to the FASTA formatter,
unspecified raises, and requesting fastq without qualities raises. -/
theorem get_format_qualities_policy_witness :
    get_format "out.xyz" none false (some true) none = .ok .fastqFormat ∧
    get_format "out.xyz" none false (some false) none = .ok (.fastaFormat none) ∧
    get_format "out.xyz" none false none none =
      .error (.unknownFileType "out.xyz") ∧
    get_format "out.xyz" (some "fastq") false (some false) none =
      .error (.valueError
        "output format cannot be FASTQ since no quality values are available") := by
  have h := get_format_qualities_policy "out.xyz" false none (by decide)
  exact ⟨h.1.trans (by decide), h.2.1.trans (by decide), h.2.2.1, h.2.2.2.1⟩

/-- Counterexample for C7: the `_sequence` stem test is case-sensitive, so a
`.TXT` file whose stem ends in uppercase `_SEQUENCE` yields no format, while
the claim's case-insensitivity example requires 'fastq'; the same path with a
lowercase stem suffix does give 'fastq'. -/
theorem guess_format_stem_case_counterexample :
    guess_format_from_name "reads_SEQUENCE.TXT" false = .ok none ∧
    guess_format_from_name "reads_sequence.TXT" false = .ok (some "fastq") ∧
    guess_format_from_name "reads_SEQUENCE.TXT" false ≠ .ok (some "fastq") :=
  ⟨by decide, by decide, by decide⟩

/-- C7 (amended): after stripping a recognized compression suffix, the
extension is matched case-insensitively against the fixed table
(fasta/fa/fna/csfasta/csfa to 'fasta'; fastq/fq to 'fastq'; a .txt extension
gives 'fastq' only when the stem ends in lowercase `_sequence`, since the stem
test is case-sensitive; sam/bam to 'sam'/'bam'); an unmatched extension yields
no format, or an unknown-file-type error when failure is requested to raise. -/
theorem guess_format_extension_table (path stem ext1 : String) (c2 : Option String)
    (rf : Bool) (hs : splitext_compressed path = (stem, ext1, c2)) :
    (pyLower ext1 ∈ ([".fasta", ".fa", ".fna", ".csfasta", ".csfa"] : List String) →
      guess_format_from_name path rf = .ok (some "fasta")) ∧
    (pyLower ext1 ∈ ([".fastq", ".fq"] : List String) →
      guess_format_from_name path rf = .ok (some "fastq")) ∧
    (pyLower ext1 = ".txt" → pyEndsWith stem "_sequence" = true →
      guess_format_from_name path rf = .ok (some "fastq")) ∧
    (pyLower ext1 = ".sam" → guess_format_from_name path rf = .ok (some "sam")) ∧
    (pyLower ext1 = ".bam" → guess_format_from_name path rf = .ok (some "bam")) ∧
    (pyLower ext1 ∉ ([".fasta", ".fa", ".fna", ".csfasta", ".csfa",
        ".fastq", ".fq", ".sam", ".bam"] : List String) →
      ¬(pyLower ext1 = ".txt" ∧ pyEndsWith stem "_sequence" = true) →
      guess_format_from_name path rf =
        if rf then .error (.unknownFileType path) else .ok none) := by
  refine ⟨?_, ?_, ?_, ?_, ?_, ?_⟩
  · intro h
    have hl : guess_format_lookup path = some "fasta" := by
      simp only [guess_format_lookup, hs]
      rw [if_pos h]
    simp [guess_format_from_name, hl]
  · intro h
    simp only [List.mem_cons, List.not_mem_nil, or_false] at h
    have hl : guess_format_lookup path = some "fastq" := by
      simp only [guess_format_lookup, hs]
      rcases h with h | h <;> rw [h] <;>
        rw [if_neg (by decide), if_pos (Or.inl (by decide))]
    simp [guess_format_from_name, hl]
  · intro h1 h2
    have hl : guess_format_lookup path = some "fastq" := by
      simp only [guess_format_lookup, hs]
      rw [h1]
      rw [if_neg (by decide), if_pos (Or.inr ⟨rfl, h2⟩)]
    simp [guess_format_from_name, hl]
  · intro h
    have hl : guess_format_lookup path = some "sam" := by
      simp only [guess_format_lookup, hs]
      rw [h]
      rw [if_neg (by decide),
        if_neg (fun hc => by
          rcases hc with hc | hc
          · exact absurd hc (by decide)
          · exact absurd hc.1 (by decide)),
        if_pos (by decide)]
      decide
    simp [guess_format_from_name, hl]
  · intro h
    have hl : guess_format_lookup path = some "bam" := by
      simp only [guess_format_lookup, hs]
      rw [h]
      rw [if_neg (by decide),
        if_neg (fun hc => by
          rcases hc with hc | hc
          · exact absurd hc (by decide)
          · exact absurd hc.1 (by decide)),
        if_pos (by decide)]
      decide
    simp [guess_format_from_name, hl]
  · intro hnm hntxt
    have h1 : pyLower ext1 ∉
        ([".fasta", ".fa", ".fna", ".csfasta", ".csfa"] : List String) := by
      intro hc; apply hnm
      simp only [List.mem_cons, List.not_mem_nil, or_false] at hc ⊢
      tauto
    have h2 : ¬(pyLower ext1 ∈ ([".fastq", ".fq"] : List String) ∨
        (pyLower ext1 = ".txt" ∧ pyEndsWith stem "_sequence" = true)) := by
      rintro (hc | hc)
      · apply hnm
        simp only [List.mem_cons, List.not_mem_nil, or_false] at hc ⊢
        tauto
      · exact hntxt hc
    have h3 : pyLower ext1 ∉ ([".sam", ".bam"] : List String) := by
      intro hc; apply hnm
      simp only [List.mem_cons, List.not_mem_nil, or_false] at hc ⊢
      tauto
    have hl : guess_format_lookup path = none := by
      simp only [guess_format_lookup, hs]
      rw [if_neg h1, if_neg h2, if_neg h3]
    simp only [guess_format_from_name, hl]

/-- Witness for C7 (amended): an uppercase extension `.FA` is recognized as
fasta, a lowercase `_sequence` stem with `.TXT` as fastq, and an unknown
extension yields no format, or raises when requested. -/
theorem guess_format_extension_table_witness :
    guess_format_from_name "READS.FA" false = .ok (some "fasta") ∧
    guess_format_from_name "reads_sequence.TXT" true = .ok (some "fastq") ∧
    guess_format_from_name "out.xyz" false = .ok none ∧
    guess_format_from_name "out.xyz" true =
      .error (.unknownFileType "out.xyz") := by
  refine ⟨?_, ?_, ?_, ?_⟩
  · exact (guess_format_extension_table "READS.FA" "READS" ".FA" none false
      (by decide)).1 (by decide)
  · exact (guess_format_extension_table "reads_sequence.TXT" "reads_sequence"
      ".TXT" none true (by decide)).2.2.1 (by decide) (by decide)
  · exact ((guess_format_extension_table "out.xyz" "out" ".xyz" none false
      (by decide)).2.2.2.2.2 (by decide) (by decide)).trans (by decide)
  · exact ((guess_format_extension_table "out.xyz" "out" ".xyz" none true
      (by decide)).2.2.2.2.2 (by decide) (by decide)).trans (by decide)

/-- A decoded alignment record, as yielded by the external pysam iterator
(the spec's injected dependency: `query_name, query_sequence,
query_qualities, is_read1, is_read2`). -/
structure SamRead where
  query_name : String
  query_sequence : String
  query_qualities : List Nat
  is_read1 : Bool
  is_read2 : Bool
deriving DecidableEq, Repr

/-- `SAMReader._as_sequence`: build a `Sequence`, encoding each quality value
as `chr(33 + q)`. -/
def SAMReader.as_sequence (read : SamRead) : Sequence :=
  ⟨read.query_name, read.query_sequence,
    some (String.mk (read.query_qualities.map (fun q => Char.ofNat (33 + q)))), ""⟩

/-- `PairedEndSAMReader._iter`: `zip(sam, sam)` pulls consecutive pairs and
stops silently when the stream ends mid-pair (discarding a dangling record);
a name mismatch inside a pair is a fatal `AtroposError`; the `assert`s
require the mate flags to be complementary; the pair is reordered so the
first-of-pair is yielded first. -/
def PairedEndSAMReader.run : List SamRead →
    List (Sequence × Sequence) × Option SeqErr
  | r0 :: r1 :: t =>
    if r0.query_name ≠ r1.query_name then
      ([], some (.samNameMismatch r0.query_name r1.query_name))
    else if r0.is_read1 then
      if r1.is_read2 then
        let rest := PairedEndSAMReader.run t
        ((SAMReader.as_sequence r0, SAMReader.as_sequence r1) :: rest.1, rest.2)
      else ([], some .assertionError)
    else
      if r1.is_read1 then
        let rest := PairedEndSAMReader.run t
        ((SAMReader.as_sequence r1, SAMReader.as_sequence r0) :: rest.1, rest.2)
      else ([], some .assertionError)
  | _ => ([], none)

/-- The number of consecutive pairs is half the list length, rounded down. -/
theorem pairUp_length {α : Type _} (l : List α) :
    (pairUp l).length = l.length / 2 := by
  induction l using twoStepInduction with
  | h0 => simp [pairUp]
  | h1 a => simp [pairUp]
  | h2 a b t ih =>
    simp only [pairUp, List.length_cons, ih]
    omega

/-- Counterexample for C10: a three-record stream whose consecutive pair is
name-matched but whose mate flags are not set makes the paired SAM reader
raise an `AssertionError` instead of yielding one pair and terminating
normally. -/
theorem PairedEndSAMReader.flags_counterexample :
    PairedEndSAMReader.run
        [⟨"q", "A", [0], false, false⟩, ⟨"q", "C", [0], false, false⟩,
          ⟨"r", "G", [0], false, false⟩] = ([], some .assertionError) ∧
    (PairedEndSAMReader.run
        [⟨"q", "A", [0], false, false⟩, ⟨"q", "C", [0], false, false⟩,
          ⟨"r", "G", [0], false, false⟩]).2 ≠ none :=
  ⟨by decide, by decide⟩

/-- C10 (amended): for every alignment stream whose consecutive pairs are
name-matched and properly flagged (when the first pulled read is read1 the
second must be read2, otherwise the second must be read1, as the asserts
require), the paired SAM reader yields one reordered pair per two records —
floor(n/2) pairs in total — and terminates normally, silently discarding a
final unpaired record, in contrast to the interleaved reader. -/
theorem PairedEndSAMReader.discards_dangling (l : List SamRead)
    (h : ∀ p ∈ pairUp l, p.1.query_name = p.2.query_name ∧
      (if p.1.is_read1 then p.2.is_read2 = true else p.2.is_read1 = true)) :
    PairedEndSAMReader.run l =
      ((pairUp l).map (fun p =>
        if p.1.is_read1 then
          (SAMReader.as_sequence p.1, SAMReader.as_sequence p.2)
        else (SAMReader.as_sequence p.2, SAMReader.as_sequence p.1)), none) ∧
    (PairedEndSAMReader.run l).1.length = l.length / 2 := by
  have hrun : PairedEndSAMReader.run l =
      ((pairUp l).map (fun p =>
        if p.1.is_read1 then
          (SAMReader.as_sequence p.1, SAMReader.as_sequence p.2)
        else (SAMReader.as_sequence p.2, SAMReader.as_sequence p.1)), none) := by
    induction l using twoStepInduction with
    | h0 => rfl
    | h1 a => rfl
    | h2 a b t ih =>
      obtain ⟨hname, hflag⟩ := h (a, b) (by simp [pairUp])
      dsimp only at hname hflag
      have ht : ∀ p ∈ pairUp t, p.1.query_name = p.2.query_name ∧
          (if p.1.is_read1 then p.2.is_read2 = true else p.2.is_read1 = true) := by
        intro p hp
        apply h p
        simp only [pairUp, List.mem_cons]
        exact Or.inr hp
      by_cases hr : a.is_read1 = true
      · rw [if_pos hr] at hflag
        simp [PairedEndSAMReader.run, hname, hr, hflag, ih ht, pairUp]
      · rw [if_neg hr] at hflag
        simp [PairedEndSAMReader.run, hname, hr, hflag, ih ht, pairUp]
  refine ⟨hrun, ?_⟩
  rw [hrun]
  simp [pairUp_length]

/-- Witness for C10 (amended): three properly flagged records with the first
two name-matched yield exactly one pair and end without error. -/
theorem PairedEndSAMReader.discards_dangling_witness :
    PairedEndSAMReader.run
        [⟨"q", "AC", [32, 33], true, false⟩, ⟨"q", "GT", [34, 35], false, true⟩,
          ⟨"r", "TT", [36, 37], true, false⟩] =
      ([(⟨"q", "AC", some "AB", ""⟩, ⟨"q", "GT", some "CD", ""⟩)], none) :=
  ((PairedEndSAMReader.discards_dangling _ (by decide)).1).trans (by decide)

/-- Python `delimiter.join(parts)`. -/
def pyJoin (d : String) : List String → String
  | [] => ""
  | [x] => x
  | x :: y :: xs => x ++ d ++ pyJoin d (y :: xs)

/-- `FastaReader.__iter__`: line loop with the open record (`name`, buffered
`seq` lines) and the 0-based `enumerate` counter `i`.  Each line is stripped;
blank lines are skipped; a '>' line emits any open record (joining the buffer
with the delimiter: empty unless `keep_linebreaks`) and opens a new one named
by the rest of the line; a '#' line is a comment; any other line is appended
to an open record's buffer and is a fatal `FormatError` (reporting the 1-based
line number) when no record is open; at end of input an open record is
emitted. -/
def FastaReader.runAux (d : String) : Nat → Option String → List String →
    List String → List Sequence × Option SeqErr
  | _, name, seq, [] =>
    match name with
    | some n => ([⟨n, pyJoin d seq, none, ""⟩], none)
    | none => ([], none)
  | i, name, seq, line :: rest =>
    let l := pyStrip line
    if l.data = [] then FastaReader.runAux d (i + 1) name seq rest
    else if l.data.head? = some '>' then
      match name with
      | some n =>
        let r := FastaReader.runAux d (i + 1) (some (String.mk l.data.tail)) [] rest
        (⟨n, pyJoin d seq, none, ""⟩ :: r.1, r.2)
      | none => FastaReader.runAux d (i + 1) (some (String.mk l.data.tail)) [] rest
    else if l.data.head? = some '#' then FastaReader.runAux d (i + 1) name seq rest
    else
      match name with
      | some n => FastaReader.runAux d (i + 1) (some n) (seq ++ [l]) rest
      | none => ([], some (.fastaFormatErr (i + 1) l))

/-- The records yielded by a `FastaReader` over the given lines, with its
sequence-joining delimiter (the empty string unless `keep_linebreaks`). -/
def FastaReader.run (d : String) (lines : List String) :
    List Sequence × Option SeqErr :=
  FastaReader.runAux d 0 none [] lines

/-- `FastaFormat.format_entry` with no line-length limit (an explicit width
delegates wrapping to the external textwrap module, not modelled; the claims
use the unwrapped configuration). -/
def FastaFormat.format_entry (name sequenceStr : String) : String :=
  ">" ++ name ++ "\n" ++ sequenceStr ++ "\n"

/-- `FastaFormat.format`. -/
def FastaFormat.format (read : Sequence) : String :=
  FastaFormat.format_entry read.name read.sequence

/-- `FileWithPrependedLine.__init__` plus `__iter__`: further iteration
yields the prepended line (a newline is appended when missing) and then the
rest of the underlying file. -/
def FileWithPrependedLine.lines (line : String) (fileRest : List String) :
    List String :=
  (if pyEndsWith line "\n" then line else line ++ "\n") :: fileRest

/-- The content-sniffing loop of `open_reader` for a stream with no usable
file name and no explicit format: leading '#' comment lines are skipped
(consumed, not reinjected); the first other line selects 'fasta' when it
starts with '>' and 'fastq' when it starts with '@' (no format otherwise) and
is reinjected into the stream via `FileWithPrependedLine`. -/
def open_reader_detect : List String → Option String × List String
  | [] => (none, [])
  | line :: rest =>
    if line.data.head? = some '#' then open_reader_detect rest
    else
      ((if line.data.head? = some '>' then some "fasta"
        else if line.data.head? = some '@' then some "fastq"
        else none),
        FileWithPrependedLine.lines line rest)

/-- Skipping '#' comment lines consumes them without affecting the result. -/
theorem open_reader_detect_skip_comments (comments xs : List String)
    (hc : ∀ c ∈ comments, c.data.head? = some '#') :
    open_reader_detect (comments ++ xs) = open_reader_detect xs := by
  induction comments with
  | nil => rfl
  | cons c cs ih =>
    have h1 : c.data.head? = some '#' := hc c (by simp)
    have h2 : ∀ c2 ∈ cs, c2.data.head? = some '#' := fun c2 hm => hc c2 (by simp [hm])
    rw [List.cons_append]
    simp only [open_reader_detect, h1, if_pos]
    exact ih h2

/-- Appending a newline does not change `str.strip()`. -/
theorem pyStrip_append_newline (s : String) : pyStrip (s ++ "\n") = pyStrip s := by
  have hnl : isPySpace '\n' = true := by decide
  simp only [pyStrip, pyStripList, dropTrailingSpace, String.data_append]
  simp [List.reverse_append, List.dropWhile_cons, hnl]

/-- The FASTA reader strips every line, so a line may be replaced by one with
the same stripped content. -/
theorem FastaReader.runAux_cons_congr (d : String) (i : Nat)
    (name : Option String) (seq : List String) (x y : String)
    (rest : List String) (hxy : pyStrip x = pyStrip y) :
    FastaReader.runAux d i name seq (x :: rest) =
      FastaReader.runAux d i name seq (y :: rest) := by
  simp only [FastaReader.runAux]
  rw [hxy]

/-- C3: for a stream with no usable filename and no explicit format,
`open_reader` skips leading '#' comment lines and classifies by the first
other line: '>' selects the fasta reader and '@' the fastq reader; the
consumed line is reinjected via `FileWithPrependedLine`, so the chosen reader
observes it as the first line — in particular the fasta reader parses the
wrapped stream exactly as if the line had never been consumed, making that
line the first record's header. -/
theorem open_reader_content_detection (comments : List String) (l : String)
    (rest : List String) (hc : ∀ c ∈ comments, c.data.head? = some '#') :
    (l.data.head? = some '>' →
      open_reader_detect (comments ++ l :: rest) =
        (some "fasta", FileWithPrependedLine.lines l rest) ∧
      ∀ d, FastaReader.run d (FileWithPrependedLine.lines l rest) =
        FastaReader.run d (l :: rest)) ∧
    (l.data.head? = some '@' →
      open_reader_detect (comments ++ l :: rest) =
        (some "fastq", FileWithPrependedLine.lines l rest)) := by
  have hwrap : ∀ d, FastaReader.run d (FileWithPrependedLine.lines l rest) =
      FastaReader.run d (l :: rest) := by
    intro d
    simp only [FastaReader.run, FileWithPrependedLine.lines]
    by_cases he : pyEndsWith l "\n" = true
    · rw [if_pos he]
    · rw [if_neg he]
      exact FastaReader.runAux_cons_congr d 0 none [] _ l rest
        (pyStrip_append_newline l)
  rw [open_reader_detect_skip_comments comments _ hc]
  constructor
  · intro hgt
    refine ⟨?_, hwrap⟩
    simp [open_reader_detect, hgt]
  · intro hat
    simp [open_reader_detect, hat]

/-- Witness for C3: a comment line followed by a '>' line is classified fasta
with the '>' line reinjected (newline restored) and parsed as the first
record's header; a leading '@' line is classified fastq and reinjected. -/
theorem open_reader_content_detection_witness :
    open_reader_detect ["# comment", ">chr1", "ACGT"] =
      (some "fasta", [">chr1\n", "ACGT"]) ∧
    FastaReader.run "" [">chr1\n", "ACGT"] =
      ([⟨"chr1", "ACGT", none, ""⟩], none) ∧
    open_reader_detect ["@r1", "ACGT"] = (some "fastq", ["@r1\n", "ACGT"]) := by
  refine ⟨?_, by decide, ?_⟩
  · exact ((open_reader_content_detection ["# comment"] ">chr1" ["ACGT"]
      (by decide)).1 (by decide)).1.trans (by decide)
  · exact ((open_reader_content_detection [] "@r1" ["ACGT"]
      (by decide)).2 (by decide)).trans (by decide)

/-- The stripped sequence lines of a FASTA record body that the reader
accumulates: blank lines and '#' comment lines are ignored, every other
(stripped) line is kept in order. -/
def fastaBodySeqs : List String → List String
  | [] => []
  | x :: xs =>
    let l := pyStrip x
    if l.data = [] then fastaBodySeqs xs
    else if l.data.head? = some '#' then fastaBodySeqs xs
    else l :: fastaBodySeqs xs

/-- Blank and '#' comment lines are skipped by the FASTA reader without
changing its state (only the line counter advances). -/
theorem FastaReader.runAux_ignorable (d : String) (junk : List String)
    (hj : ∀ c ∈ junk, (pyStrip c).data = [] ∨ (pyStrip c).data.head? = some '#') :
    ∀ (i : Nat) (name : Option String) (seq rest : List String),
      FastaReader.runAux d i name seq (junk ++ rest) =
        FastaReader.runAux d (i + junk.length) name seq rest := by
  induction junk with
  | nil => intro i name seq rest; simp
  | cons c cs ih =>
    intro i name seq rest
    have hcs : ∀ x ∈ cs, (pyStrip x).data = [] ∨ (pyStrip x).data.head? = some '#' :=
      fun x hx => hj x (by simp [hx])
    have harith : i + 1 + cs.length = i + (cs.length + 1) := by omega
    rcases hj c (by simp) with h1 | h1
    · rw [List.cons_append]
      simp only [FastaReader.runAux, h1, if_pos]
      rw [ih hcs, harith]
      rfl
    · have hne : ¬((pyStrip c).data = []) := by
        intro h0; rw [h0] at h1; simp at h1
      have hgt : ¬((pyStrip c).data.head? = some '>') := by
        rw [h1]; simp
      rw [List.cons_append]
      simp only [FastaReader.runAux, if_neg hne, if_neg hgt, if_pos h1]
      rw [ih hcs, harith]
      rfl

/-- While a record is open, body lines (none of which strips to a '>' line)
are accumulated: blank and comment lines skipped, sequence lines appended. -/
theorem FastaReader.runAux_body (d : String) (body : List String)
    (hb : ∀ s ∈ body, ¬((pyStrip s).data.head? = some '>')) :
    ∀ (i : Nat) (n : String) (seq rest : List String),
      FastaReader.runAux d i (some n) seq (body ++ rest) =
        FastaReader.runAux d (i + body.length) (some n)
          (seq ++ fastaBodySeqs body) rest := by
  induction body with
  | nil => intro i n seq rest; simp [fastaBodySeqs]
  | cons x xs ih =>
    intro i n seq rest
    have hx := hb x (by simp)
    have hxs : ∀ s ∈ xs, ¬((pyStrip s).data.head? = some '>') :=
      fun s hs => hb s (by simp [hs])
    have harith : i + 1 + xs.length = i + (xs.length + 1) := by omega
    by_cases h0 : (pyStrip x).data = []
    · rw [List.cons_append]
      simp only [FastaReader.runAux, h0, if_pos]
      rw [ih hxs, harith]
      simp only [fastaBodySeqs, h0, if_pos, List.length_cons]
    · by_cases hcm : (pyStrip x).data.head? = some '#'
      · rw [List.cons_append]
        simp only [FastaReader.runAux, if_neg h0, if_neg hx, if_pos hcm]
        rw [ih hxs, harith]
        simp only [fastaBodySeqs, if_neg h0, if_pos hcm, List.length_cons]
      · rw [List.cons_append]
        simp only [FastaReader.runAux, if_neg h0, if_neg hx, if_neg hcm]
        rw [ih hxs, harith]
        simp only [fastaBodySeqs, if_neg h0, if_neg hcm, List.length_cons]
        rw [List.append_assoc, List.singleton_append]

/-- Processing rendered FASTA blocks with a record already open emits that
record and then one record per block, ending without error. -/
theorem FastaReader.runAux_blocks (d : String)
    (blocks : List (String × List String))
    (hh : ∀ b ∈ blocks, (pyStrip b.1).data.head? = some '>')
    (hb : ∀ b ∈ blocks, ∀ s ∈ b.2, ¬((pyStrip s).data.head? = some '>')) :
    ∀ (i : Nat) (n : String) (seq : List String),
      FastaReader.runAux d i (some n) seq
          (blocks.flatMap (fun b => b.1 :: b.2)) =
        (⟨n, pyJoin d seq, none, ""⟩ ::
          blocks.map (fun b => ⟨String.mk (pyStrip b.1).data.tail,
            pyJoin d (fastaBodySeqs b.2), none, ""⟩), none) := by
  induction blocks with
  | nil => intro i n seq; simp [FastaReader.runAux]
  | cons b bs ih =>
    intro i n seq
    have hhb := hh b (by simp)
    have hne : ¬((pyStrip b.1).data = []) := by
      intro h0; rw [h0] at hhb; simp at hhb
    have hbb : ∀ s ∈ b.2, ¬((pyStrip s).data.head? = some '>') :=
      fun s hs => hb b (by simp) s hs
    have hhs : ∀ b2 ∈ bs, (pyStrip b2.1).data.head? = some '>' :=
      fun b2 h2 => hh b2 (by simp [h2])
    have hbs : ∀ b2 ∈ bs, ∀ s ∈ b2.2, ¬((pyStrip s).data.head? = some '>') :=
      fun b2 h2 => hb b2 (by simp [h2])
    rw [List.flatMap_cons, List.cons_append]
    simp only [FastaReader.runAux, if_neg hne, if_pos hhb]
    rw [FastaReader.runAux_body d b.2 hbb, List.nil_append, ih hhs hbs]
    simp

/-- C8: reading a well-formed FASTA input (optional ignorable lines, then per
record a '>' header line followed by body lines none of which opens a new
record) succeeds, yielding one record per block whose name is the stripped
header line without its '>' and whose sequence is the concatenation (empty
delimiter, no `keep_linebreaks`) of the record's sequence lines; re-rendering
every record with the unwrapped `FastaFormat` reproduces exactly '>' plus the
header plus the concatenated sequence lines — content preserved modulo the
original line-wrap width. -/
theorem fasta_roundtrip (leading : List String)
    (blocks : List (String × List String))
    (hleading : ∀ c ∈ leading,
      (pyStrip c).data = [] ∨ (pyStrip c).data.head? = some '#')
    (hh : ∀ b ∈ blocks, (pyStrip b.1).data.head? = some '>')
    (hb : ∀ b ∈ blocks, ∀ s ∈ b.2, ¬((pyStrip s).data.head? = some '>')) :
    FastaReader.run "" (leading ++ blocks.flatMap (fun b => b.1 :: b.2)) =
      (blocks.map (fun b => ⟨String.mk (pyStrip b.1).data.tail,
        pyJoin "" (fastaBodySeqs b.2), none, ""⟩), none) ∧
    (FastaReader.run "" (leading ++ blocks.flatMap (fun b => b.1 :: b.2))).1.map
        FastaFormat.format =
      blocks.map (fun b => ">" ++ String.mk (pyStrip b.1).data.tail ++ "\n" ++
        pyJoin "" (fastaBodySeqs b.2) ++ "\n") := by
  have hrun : FastaReader.run ""
      (leading ++ blocks.flatMap (fun b => b.1 :: b.2)) =
      (blocks.map (fun b => ⟨String.mk (pyStrip b.1).data.tail,
        pyJoin "" (fastaBodySeqs b.2), none, ""⟩), none) := by
    rw [FastaReader.run, FastaReader.runAux_ignorable "" leading hleading]
    cases blocks with
    | nil => simp [FastaReader.runAux]
    | cons b bs =>
      have hhb := hh b (by simp)
      have hne : ¬((pyStrip b.1).data = []) := by
        intro h0; rw [h0] at hhb; simp at hhb
      have hbb : ∀ s ∈ b.2, ¬((pyStrip s).data.head? = some '>') :=
        fun s hs => hb b (by simp) s hs
      have hhs : ∀ b2 ∈ bs, (pyStrip b2.1).data.head? = some '>' :=
        fun b2 h2 => hh b2 (by simp [h2])
      have hbs : ∀ b2 ∈ bs, ∀ s ∈ b2.2, ¬((pyStrip s).data.head? = some '>') :=
        fun b2 h2 => hb b2 (by simp [h2])
      rw [List.flatMap_cons, List.cons_append]
      simp only [FastaReader.runAux, if_neg hne, if_pos hhb]
      rw [FastaReader.runAux_body "" b.2 hbb, List.nil_append,
        FastaReader.runAux_blocks "" bs hhs hbs]
      simp
  refine ⟨hrun, ?_⟩
  rw [hrun]
  simp [FastaFormat.format, FastaFormat.format_entry, List.map_map,
    Function.comp]

/-- Witness for C8: a two-record FASTA file with a leading comment, a blank
line, an interspersed comment, and wrapped sequence lines parses into the two
records and re-renders with the wrap removed and all content preserved. -/
theorem fasta_roundtrip_witness :
    ["# lib\n"] ++
        [(">chr1\n", ["AC\n", "GT\n"]),
          (">chr2 circular\n", ["TT\n", "\n", "# note\n", "GG\n"])].flatMap
          (fun b => b.1 :: b.2) =
      ["# lib\n", ">chr1\n", "AC\n", "GT\n", ">chr2 circular\n", "TT\n",
        "\n", "# note\n", "GG\n"] ∧
    FastaReader.run "" (["# lib\n"] ++
        [(">chr1\n", ["AC\n", "GT\n"]),
          (">chr2 circular\n", ["TT\n", "\n", "# note\n", "GG\n"])].flatMap
          (fun b => b.1 :: b.2)) =
      ([⟨"chr1", "ACGT", none, ""⟩, ⟨"chr2 circular", "TTGG", none, ""⟩],
        none) ∧
    (FastaReader.run "" (["# lib\n"] ++
        [(">chr1\n", ["AC\n", "GT\n"]),
          (">chr2 circular\n", ["TT\n", "\n", "# note\n", "GG\n"])].flatMap
          (fun b => b.1 :: b.2))).1.map FastaFormat.format =
      [">chr1\nACGT\n", ">chr2 circular\nTTGG\n"] := by
  have h := fasta_roundtrip ["# lib\n"]
    [(">chr1\n", ["AC\n", "GT\n"]),
      (">chr2 circular\n", ["TT\n", "\n", "# note\n", "GG\n"])]
    (by decide) (by decide) (by decide)
  exact ⟨by decide, h.1.trans (by decide), h.2.trans (by decide)⟩
